import Mathlib

/-!
Verification of the CXO node connection layer (node/conn.go and the node-level
registries of node.go) against its specification.  Byte strings are modelled as
`List Nat` with every element below 256; 32-bit machine integers are `Nat`
reduced modulo 2^32 where the Go code can overflow.  Keys (cipher.PubKey,
cipher.SHA256) are abstracted to `Nat`, with 0 standing for the blank (zero)
key.  Connections are identified by `Nat` handles.
-/

/-- Modulus of Go's uint32 arithmetic. -/
def u32Mod : Nat := 4294967296

/-- Little-endian bytes of a 32-bit value, as written by
binary.LittleEndian.PutUint32 (conn.go). -/
def putUint32 (n : Nat) : List Nat :=
  [n % 256, n / 256 % 256, n / 65536 % 256, n / 16777216 % 256]

/-- Value read by binary.LittleEndian.Uint32 from the first four bytes
(conn.go decodeRaw and the receiving loop). -/
def readUint32 (l : List Nat) : Nat :=
  l.headD 0 + 256 * ((l.drop 1).headD 0) + 65536 * ((l.drop 2).headD 0) +
    16777216 * ((l.drop 3).headD 0)

/-- Overwrite four bytes of `raw` at offset `off` with the little-endian
encoding of `v`; models a PutUint32 into a sub-slice of `raw`, which in Go
aliases the backing array. -/
def writeUint32At (raw : List Nat) (off : Nat) (v : Nat) : List Nat :=
  raw.take off ++ putUint32 v ++ raw.drop (off + 4)

/-- Wire messages of the node/msg package, the closed tagged union used by
conn.go: Sub, Unsub, RqList, List, Root, RqObject, RqPreview, Object, Ok,
Err.  Keys and signatures are abstracted to `Nat`; Root.value is the encoded
body bytes. -/
inductive Msg
  | sub (feed : Nat)
  | unsub (feed : Nat)
  | rqList
  | list (feeds : List Nat)
  | root (feed : Nat) (nonce : Nat) (seq : Nat) (value : List Nat) (sig : Nat)
  | rqObject (key : Nat)
  | rqPreview (feed : Nat)
  | object (value : List Nat)
  | ok
  | err (e : String)
  deriving DecidableEq

/-- Length-led byte encoding of a natural number (base-256 digits after a
digit count). -/
def encNat (n : Nat) : List Nat :=
  (Nat.digits 256 n).length :: Nat.digits 256 n

/-- Inverse of `encNat`, consuming from the front of a byte list. -/
def decNat (l : List Nat) : Option (Nat × List Nat) :=
  match l with
  | [] => none
  | len :: rest =>
    if rest.length < len then none
    else some (Nat.ofDigits 256 (rest.take len), rest.drop len)

/-- Length-led encoding of a byte blob. -/
def encBytes (v : List Nat) : List Nat := v.length :: v

/-- Inverse of `encBytes`. -/
def decBytes (l : List Nat) : Option (List Nat × List Nat) :=
  match l with
  | [] => none
  | len :: rest =>
    if rest.length < len then none else some (rest.take len, rest.drop len)

/-- Count-led encoding of a list of keys. -/
def encNats (l : List Nat) : List Nat :=
  l.length :: (l.map encNat).flatten

/-- Decode `count` keys from the front of a byte list. -/
def decNats : Nat → List Nat → Option (List Nat × List Nat)
  | 0, l => some ([], l)
  | n + 1, l =>
    match decNat l with
    | none => none
    | some (k, rest) =>
      match decNats n rest with
      | none => none
      | some (ks, rest2) => some (k :: ks, rest2)

/-- Length-led encoding of a string as character codes. -/
def encStr (s : String) : List Nat :=
  s.data.length :: s.data.map Char.toNat

/-- Inverse of `encStr`. -/
def decStr (l : List Nat) : Option (String × List Nat) :=
  match l with
  | [] => none
  | len :: rest =>
    if rest.length < len then none
    else some (String.mk ((rest.take len).map Char.ofNat), rest.drop len)

/-- Modelled from the spec: msg.Encode of the node/msg package, whose source
is not under src/ (conn.go only calls it).  The spec fixes a one-byte type
tag followed by a type-specific payload and leaves the payload layout open
("summarised, not bit-exact"), so a concrete length-led layout is chosen
here. -/
def msgEncode : Msg → List Nat
  | .sub f => 1 :: encNat f
  | .unsub f => 2 :: encNat f
  | .rqList => [3]
  | .list fs => 4 :: encNats fs
  | .root f n s v g => 5 :: (encNat f ++ encNat n ++ encNat s ++ encBytes v ++ encNat g)
  | .rqObject k => 6 :: encNat k
  | .rqPreview f => 7 :: encNat f
  | .object v => 8 :: encBytes v
  | .ok => [9]
  | .err e => 10 :: encStr e

/-- Modelled from the spec: msg.Decode of the node/msg package (not under
src/); fails with a typed error on an unknown tag or truncated payload, as
the spec requires. -/
def msgDecode (l : List Nat) : Except String Msg :=
  match l with
  | [] => .error "empty messege"
  | t :: rest =>
    if t = 1 then
      match decNat rest with
      | some (f, []) => .ok (Msg.sub f)
      | _ => .error "bad payload"
    else if t = 2 then
      match decNat rest with
      | some (f, []) => .ok (Msg.unsub f)
      | _ => .error "bad payload"
    else if t = 3 then
      match rest with
      | [] => .ok Msg.rqList
      | _ => .error "bad payload"
    else if t = 4 then
      match rest with
      | [] => .error "bad payload"
      | cnt :: rest2 =>
        match decNats cnt rest2 with
        | some (fs, []) => .ok (Msg.list fs)
        | _ => .error "bad payload"
    else if t = 5 then
      match decNat rest with
      | some (f, r1) =>
        match decNat r1 with
        | some (n, r2) =>
          match decNat r2 with
          | some (s, r3) =>
            match decBytes r3 with
            | some (v, r4) =>
              match decNat r4 with
              | some (g, []) => .ok (Msg.root f n s v g)
              | _ => .error "bad payload"
            | _ => .error "bad payload"
          | _ => .error "bad payload"
        | _ => .error "bad payload"
      | _ => .error "bad payload"
    else if t = 6 then
      match decNat rest with
      | some (k, []) => .ok (Msg.rqObject k)
      | _ => .error "bad payload"
    else if t = 7 then
      match decNat rest with
      | some (f, []) => .ok (Msg.rqPreview f)
      | _ => .error "bad payload"
    else if t = 8 then
      match decBytes rest with
      | some (v, []) => .ok (Msg.object v)
      | _ => .error "bad payload"
    else if t = 9 then
      match rest with
      | [] => .ok Msg.ok
      | _ => .error "bad payload"
    else if t = 10 then
      match decStr rest with
      | some (e, []) => .ok (Msg.err e)
      | _ => .error "bad payload"
    else .error "unknown messege type"

/-- Conn.encodeMsg (conn.go lines 387-400), step for step: an 8-byte header
buffer is allocated, seq is written at offset 0, then rseq is written into
raw[:4] - the SAME first four bytes, since the Go sub-slice raw[:4] aliases
the head of raw - and the encoded message is appended. -/
def encodeMsg (seq rseq : Nat) (m : Msg) : List Nat :=
  let em := msgEncode m
  let raw := List.replicate 8 0
  let raw := writeUint32At raw 0 seq
  let raw := writeUint32At raw 0 rseq
  raw ++ em

/-- Conn.decodeRaw (conn.go lines 86-101): a frame shorter than 9 bytes is an
error; otherwise seq is read from bytes 0..3, rseq from bytes 4..7, and the
rest is passed to msg.Decode. -/
def decodeRaw (raw : List Nat) : Except String (Nat × Nat × Msg) :=
  if raw.length < 9 then .error "invlaid messege received: too short"
  else
    let seq := readUint32 raw
    let raw1 := raw.drop 4
    let rseq := readUint32 raw1
    let raw2 := raw1.drop 4
    match msgDecode raw2 with
    | .ok m => .ok (seq, rseq, m)
    | .error e => .error e

/-- Connection handle (stands for a *Conn pointer). -/
abbrev ConnId := Nat

--
-- request/response multiplexer (sendRequest and the receiving loop)
--

/-- Direction of an operation on an unbuffered Go channel. -/
inductive ChanDir
  | send
  | recv
  deriving DecidableEq

/-- Operation on the reply sink channel of a pending request: its direction
and, for a send, the value put on the channel. -/
structure SinkOp where
  dir : ChanDir
  val : Option Msg
  deriving DecidableEq

/-- Sink operation performed by the receiving loop when an incoming message
matches a pending request (conn.go line 471): the statement rq <- m, a SEND
of the decoded message into the sink. -/
def receivingSinkOp (m : Msg) : SinkOp := ⟨ChanDir.send, some m⟩

/-- Sink operation performed by sendRequest while waiting (conn.go line 536):
the select case rq <- reply, which is also a SEND, of the reply variable,
which at that point still holds its zero value (the nil message). -/
def sendRequestSinkOp : SinkOp := ⟨ChanDir.send, none⟩

/-- An unbuffered Go channel transfers a value exactly when one side sends
and the other receives. -/
def sinkTransfers (a b : SinkOp) : Bool :=
  decide (a.dir ≠ b.dir)

/-- Sentinel error strings (node.go: ErrTimeout, ErrConnClsoed). -/
def errTimeoutStr : String := "timeout"

/-- Error returned to a caller whose connection closed while a request was
pending. -/
def errClosedStr : String := "connection closed"

/-- Event that makes sendRequest's select statement (conn.go lines 535-544)
return: the sink case fires, the response timer fires, or the close channel
is closed. -/
inductive SendRequestEvent
  | sinkFired
  | timedOut
  | connClosed
  deriving DecidableEq

/-- Value returned by sendRequest for each way its select can complete,
read off conn.go lines 535-544: the sink case returns the reply variable -
never assigned, hence the nil message, modelled as none - while the other
two cases return the sentinel errors. -/
def sendRequestResult : SendRequestEvent → Except String (Option Msg)
  | .sinkFired => .ok none
  | .timedOut => .error errTimeoutStr
  | .connClosed => .error errClosedStr

/-- Pending-request table of a connection: outbound seq to sink handle
(c.reqs, conn.go line 35). -/
abbrev Reqs := List (Nat × Nat)

/-- Conn.isResponse (conn.go lines 489-495): look the rseq up in the
pending-request table. -/
def isResponse : Reqs → Nat → Option Nat
  | [], _ => none
  | (k, s) :: rest, rseq => if k = rseq then some s else isResponse rest rseq

/-- Where the receiving loop routes a decoded incoming message (conn.go
lines 470-478): to the pending request's sink when isResponse finds one,
to the unsolicited handler otherwise. -/
inductive Route
  | toSink (sink : Nat)
  | toHandle
  deriving DecidableEq

/-- Routing decision of the receiving loop for a message with the given
rseq. -/
def receivingRoute (reqs : Reqs) (rseq : Nat) : Route :=
  match isResponse reqs rseq with
  | some s => Route.toSink s
  | none => Route.toHandle

/-- Conn.nextSeq (conn.go lines 383-385): atomic.AddUint32(&c.seq, 1), a
pre-increment returning the new counter value, with uint32 wrap-around. -/
def nextSeq (counter : Nat) : Nat := (counter + 1) % u32Mod

/-- Counter value after n calls of nextSeq starting from the fresh
connection's counter 0 (conn.go line 34; the Go zero value); for n ≥ 1 this
is also the seq returned by the n-th call. -/
def seqAfter : Nat → Nat
  | 0 => 0
  | n + 1 => nextSeq (seqAfter n)

--
-- feed registry
--

/-- Membership of a connection in a Go map[*Conn]struct of connections. -/
def memC (c : ConnId) : List ConnId → Bool
  | [] => false
  | x :: rest => if x = c then true else memC c rest

/-- Deletion of a connection from a Go map[*Conn]struct of connections. -/
def removeC (c : ConnId) : List ConnId → List ConnId
  | [] => []
  | x :: rest => if x = c then removeC c rest else x :: removeC c rest

/-- Node-wide feed registry: feed public key to the set of subscribed
connections, mirroring feeds map[cipher.PubKey]map[*Conn]struct of node.go;
a key is present exactly when the node shares the feed. -/
abbrev FeedReg := List (Nat × List ConnId)

/-- Node.HasFeed (node.go): the feed key is present in the registry. -/
def hasFeed : FeedReg → Nat → Bool
  | [], _ => false
  | (k, _) :: rest, f => if k = f then true else hasFeed rest f

/-- hasConnFeed of the feed registry (used by handleSub, conn.go line 623):
the connection is in the feed's subscriber set. -/
def hasConnFeed : FeedReg → ConnId → Nat → Bool
  | [], _, _ => false
  | (k, cs) :: rest, c, f => if k = f then memC c cs else hasConnFeed rest c f

/-- Node.addConnToFeed (node.go lines 1335-1343): add the connection to the
feed's subscriber set, only when the feed is present; adding twice does
nothing. -/
def addConnFeed : FeedReg → ConnId → Nat → FeedReg
  | [], _, _ => []
  | (k, cs) :: rest, c, f =>
    if k = f then (k, if memC c cs then cs else c :: cs) :: rest
    else (k, cs) :: addConnFeed rest c f

/-- Node.delConnFromFeed (node.go lines 1345-1355): remove the connection
from the feed's subscriber set. -/
def delConnFeed : FeedReg → ConnId → Nat → FeedReg
  | [], _, _ => []
  | (k, cs) :: rest, c, f =>
    if k = f then (k, removeC c cs) :: rest
    else (k, cs) :: delConnFeed rest c f

/-- Node.Feeds (node.go lines 1297-1312): the keys of the feeds map.  The
copy-on-write cached slice, invalidated on every registry mutation, is an
optimization and is modelled away. -/
def nodeFeeds (reg : FeedReg) : List Nat := reg.map Prod.fst

--
-- handleSub / Subscribe
--

/-- Result of running an unsolicited-message handler: the updated feed
registry, the (rseq, message) pairs handed to sendMsg, and the handler's
returned error - a non-nil return makes the receiving loop close the
connection fatally (conn.go lines 475-478). -/
structure HandlerOut where
  reg : FeedReg
  sends : List (Nat × Msg)
  fatal : Option String
  deriving DecidableEq

/-- Conn.handleSub (conn.go lines 614-652), branch for branch: blank feed is
a fatal error; an already-subscribed connection gets Ok; a rejecting
onSubscribeRemote callback gets its error; a feed the node does not share
gets the error "do not share the feed"; otherwise the connection is added
to the feed's subscriber set and gets Ok.  Each reply uses the incoming
seq as its rseq (sendOk / sendErr).  The blank public key is modelled as
key 0. -/
def handleSub (reject : Option String) (reg : FeedReg) (c : ConnId) (seq : Nat)
    (feed : Nat) : HandlerOut :=
  if feed = 0 then ⟨reg, [], some "blank public key"⟩
  else if hasConnFeed reg c feed then ⟨reg, [(seq, Msg.ok)], none⟩
  else
    match reject with
    | some e => ⟨reg, [(seq, Msg.err e)], none⟩
    | none =>
      if hasFeed reg feed then ⟨addConnFeed reg c feed, [(seq, Msg.ok)], none⟩
      else ⟨reg, [(seq, Msg.err "do not share the feed")], none⟩

/-- Root descriptor as sent on the wire (registry.Root fields used by
conn.go sendRoot): publisher key, head nonce, sequence number, signature and
the encoded body. -/
structure RootDesc where
  pub : Nat
  nonce : Nat
  seq : Nat
  sig : Nat
  body : List Nat
  deriving DecidableEq

/-- Conn.sendRoot (conn.go lines 202-212): a Root push is sent with rseq 0
(unsolicited). -/
def sendRootMsg (r : RootDesc) : Nat × Msg :=
  (0, Msg.root r.pub r.nonce r.seq r.body r.sig)

/-- Conn.sendLastRoot (conn.go lines 215-222): send the node's own latest
Root of the feed to the peer, when the container has one; errors are
ignored. -/
def sendLastRoot (last : Option RootDesc) : List (Nat × Msg) :=
  match last with
  | some r => [sendRootMsg r]
  | none => []

/-- Tail of Conn.Subscribe after the request returned (conn.go lines
244-263): on an Ok reply the subscriber records the feed for this
connection in its own registry and sends ITS OWN latest Root of the feed to
the peer; on an Err reply the error is returned; any other reply type is an
invalid-response error.  `lastOwn` is the subscriber's own latest Root of
the feed. -/
def subscribeOnReply (reg : FeedReg) (c : ConnId) (feed : Nat)
    (lastOwn : Option RootDesc) (reply : Msg) :
    FeedReg × List (Nat × Msg) × Option String :=
  match reply with
  | Msg.ok => (addConnFeed reg c feed, sendLastRoot lastOwn, none)
  | Msg.err e => (reg, [], some e)
  | _ => (reg, [], some "invalid response type")

/-- Does a message carry a Root descriptor. -/
def isRootMsg : Msg → Bool
  | Msg.root _ _ _ _ _ => true
  | _ => false

--
-- handleRqList
--

/-- Modelled from the spec: the ErrNotPublic sentinel replied by a
non-public node (its definition is not under src/; only its use in
handleRqList is). -/
def errNotPublicStr : String := "not a public server"

/-- Conn.handleRqList (conn.go lines 666-678): a node not configured public
replies Err(ErrNotPublic); a public node replies List with Node.Feeds(),
using the incoming seq as rseq. -/
def handleRqList (pub : Bool) (reg : FeedReg) (seq : Nat) : List (Nat × Msg) :=
  if pub = false then [(seq, Msg.err errNotPublicStr)]
  else [(seq, Msg.list (nodeFeeds reg))]

--
-- handleRoot (Root monotonicity)
--

/-- Container-side state for one (feed, nonce) pair: whether the node has
the feed at all, and the highest stored Root seq for the head, none when no
Root is stored yet. -/
structure RootState where
  shared : Bool
  last : Option Nat
  deriving DecidableEq

/-- Answer of Container.LastRootSeq for one (feed, nonce) pair. -/
inductive LastSeqRes
  | noSuchFeed
  | notFound
  | found (n : Nat)
  deriving DecidableEq

/-- Modelled from the spec: Container.LastRootSeq (the container is not
under src/; conn.go handleRoot only calls it) with its sentinel errors;
ErrNoSuchHead and ErrNotFound are folded into one constructor because
handleRoot treats the two identically (conn.go line 692). -/
def lastRootSeq (st : RootState) : LastSeqRes :=
  if st.shared = false then LastSeqRes.noSuchFeed
  else
    match st.last with
    | none => LastSeqRes.notFound
    | some n => LastSeqRes.found n

/-- Result of handling one incoming Root: the new container state, whether
Container.ReceivedRoot was invoked (signature verification attempted) and
whether the Root was accepted and stored. -/
structure RootOut where
  st : RootState
  verified : Bool
  stored : Bool
  deriving DecidableEq

/-- Conn.handleRoot (conn.go lines 681-720), seq gate for seq gate:
ErrNoSuchFeed drops the Root; ErrNoSuchHead and ErrNotFound fall through to
verification; when a stored seq exists and last >= root.Seq the Root is
dropped before any verification; otherwise Container.ReceivedRoot verifies
and - modelled from the spec, since the container is not under src/ -
stores the Root, raising the stored seq to root.Seq.  `verifyOk` says
whether signature verification succeeds for this Root. -/
def handleRoot (verifyOk : Bool) (st : RootState) (rootSeq : Nat) : RootOut :=
  match lastRootSeq st with
  | LastSeqRes.noSuchFeed => ⟨st, false, false⟩
  | LastSeqRes.notFound =>
    if verifyOk then ⟨⟨st.shared, some rootSeq⟩, true, true⟩
    else ⟨st, true, false⟩
  | LastSeqRes.found lastv =>
    if lastv ≥ rootSeq then ⟨st, false, false⟩
    else if verifyOk then ⟨⟨st.shared, some rootSeq⟩, true, true⟩
    else ⟨st, true, false⟩

/-- Run handleRoot over a trace of incoming Roots for one (feed, nonce)
pair; each trace entry is (verification outcome, root seq).  Returns the
final state and the seqs of the accepted (stored) Roots in arrival
order. -/
def runRoots (st : RootState) : List (Bool × Nat) → RootState × List Nat
  | [] => (st, [])
  | (v, sq) :: rest =>
    let out := handleRoot v st sq
    let tail := runRoots out.st rest
    (tail.1, (if out.stored then [sq] else []) ++ tail.2)

--
-- cget.Get (object integrity)
--

/-- cget.Get (conn.go lines 335-355) after its request returned, as a
function of the request's outcome: the reply value is accepted only when
its hash equals the requested key, a mismatch or an Err or unexpected reply
is an error returned to the caller.  The second component records whether
this code closes the connection - the body of Get contains no close or
fatality call on any path, so it is false on every branch.  SHA-256 is
library code, abstracted as the `hash` parameter. -/
def cgetGet (hash : List Nat → Nat) (key : Nat) (reply : Except String Msg) :
    Except String (List Nat) × Bool :=
  match reply with
  | .error e => (.error e, false)
  | .ok m =>
    match m with
    | Msg.object v =>
      if hash v ≠ key then (.error "wrong object received (different hash)", false)
      else (.ok v, false)
    | Msg.err e => (.error ("error: " ++ e), false)
    | _ => (.error "invalid msg type received", false)

--
-- handleRqObject (object service)
--

/-- How the wait of handleRqObject ends: the object was already available
on entry (the buffered want channel is non-empty at the first select), the
object arrives while waiting, the response timer fires, or the connection
closes. -/
inductive RqObjEvent
  | immediate (val : List Nat)
  | arrival (val : List Nat)
  | timedOut
  | connClosed
  deriving DecidableEq

/-- Conn.handleRqObject (conn.go lines 723-772), as the frames it sends for
each way its waiting ends: an available or arriving object is sent as
Object with the request's seq as rseq; on timeout the code sends the
message composed by the literal &msg.Err with no field set, hence an Err
whose text is the EMPTY string; on close nothing is sent. -/
def handleRqObject (seq : Nat) (ev : RqObjEvent) : List (Nat × Msg) :=
  match ev with
  | RqObjEvent.immediate v => [(seq, Msg.object v)]
  | RqObjEvent.arrival v => [(seq, Msg.object v)]
  | RqObjEvent.timedOut => [(seq, Msg.err "")]
  | RqObjEvent.connClosed => []

--
-- close (idempotent close sequence)
--

/-- Joint state of a connection and the node-side bookkeeping touched by
Conn.close: the close-once flag, membership in the node's active set, the
feed registry, the want registry, transport and receive-task status, the
count of onDisconnect invocations, and the pending requests (by outbound
seq) together with those already failed with ErrClosed. -/
structure CloseState where
  closedOnce : Bool
  active : List ConnId
  feeds : FeedReg
  wants : List (Nat × List ConnId)
  transportClosed : Bool
  recvDone : Bool
  disconnects : Nat
  pending : List Nat
  failedClosed : List Nat
  deriving DecidableEq

/-- Remove a connection from every subscriber (or waiter) set of a
registry (node.go delConnFromFeed applied on all feeds, and
delConnFromWantedObjects, node.go lines 1218-1225). -/
def removeConnEverywhere (c : ConnId) (reg : List (Nat × List ConnId)) :
    List (Nat × List ConnId) :=
  reg.map (fun p => (p.1, removeC c p.2))

/-- Conn.close (conn.go lines 366-381): under closeo.Do - so only when the
connection is not closed yet, otherwise nothing happens - it removes the
connection from the node (delConnection; its body is not under src/:
modelled from the spec's close sequence (a)-(b) and from node.go delConn /
delConnFromFeed / delConnFromWantedObjects), closes the closeq channel -
whereupon every pending sendRequest returns ErrClosed (conn.go lines
542-543) - closes the transport, waits for the receive task and invokes
onDisconnect. -/
def closeConn (c : ConnId) (st : CloseState) : CloseState :=
  if st.closedOnce then st
  else
    ⟨true, removeC c st.active, removeConnEverywhere c st.feeds,
      removeConnEverywhere c st.wants, true, true, st.disconnects + 1,
      [], st.failedClosed ++ st.pending⟩

--
-- helper lemmas
--

theorem memC_removeC (c : ConnId) (l : List ConnId) : memC c (removeC c l) = false := by
  induction l with
  | nil => rfl
  | cons x rest ih =>
    by_cases hx : x = c
    · simp [removeC, hx, ih]
    · simp [removeC, hx, memC, ih]

theorem memC_cons_self (c : ConnId) (l : List ConnId) : memC c (c :: l) = true := by
  simp [memC]

theorem hasConnFeed_of_not_hasFeed (reg : FeedReg) (c : ConnId) (f : Nat)
    (h : hasFeed reg f = false) : hasConnFeed reg c f = false := by
  induction reg with
  | nil => rfl
  | cons p rest ih =>
    obtain ⟨k, cs⟩ := p
    by_cases hk : k = f
    · simp [hasFeed, hk] at h
    · simp only [hasFeed, hk, if_false] at h
      simp [hasConnFeed, hk, ih h]

theorem hasConnFeed_addConnFeed (reg : FeedReg) (c : ConnId) (f : Nat)
    (h : hasFeed reg f = true) : hasConnFeed (addConnFeed reg c f) c f = true := by
  induction reg with
  | nil => simp [hasFeed] at h
  | cons p rest ih =>
    obtain ⟨k, cs⟩ := p
    by_cases hk : k = f
    · subst hk
      by_cases hc : memC c cs = true
      · simp [addConnFeed, hasConnFeed, hc]
      · simp [addConnFeed, hasConnFeed, hc, memC_cons_self]
    · simp only [hasFeed, hk, if_false] at h
      simp [addConnFeed, hasConnFeed, hk, ih h]

theorem mem_nodeFeeds (reg : FeedReg) (f : Nat) :
    f ∈ nodeFeeds reg ↔ hasFeed reg f = true := by
  induction reg with
  | nil => simp [nodeFeeds, hasFeed]
  | cons p rest ih =>
    obtain ⟨k, cs⟩ := p
    by_cases hk : k = f
    · subst hk; simp [nodeFeeds, hasFeed]
    · simp [nodeFeeds, hasFeed, hk, Ne.symm hk] at ih ⊢
      exact ih

theorem handleRoot_cases (v : Bool) (st : RootState) (sq : Nat) :
    ((handleRoot v st sq).stored = false ∧ (handleRoot v st sq).st = st) ∨
    ((handleRoot v st sq).stored = true ∧
      (handleRoot v st sq).st = ⟨st.shared, some sq⟩ ∧
      ∀ l, st.last = some l → l < sq) := by
  obtain ⟨sh, la⟩ := st
  cases sh <;> cases la <;> cases v <;>
    simp [handleRoot, lastRootSeq] <;>
    rename_i lastv <;>
    by_cases hge : lastv ≥ sq <;>
    simp [hge] <;> omega

theorem runRoots_gt (tr : List (Bool × Nat)) :
    ∀ (st : RootState) (l : Nat), st.last = some l →
      ∀ a ∈ (runRoots st tr).2, l < a := by
  induction tr with
  | nil => intro st l _ a ha; simp [runRoots] at ha
  | cons p rest ih =>
    intro st l hlast a ha
    obtain ⟨v, sq⟩ := p
    simp only [runRoots, List.mem_append] at ha
    rcases handleRoot_cases v st sq with ⟨hs, hst⟩ | ⟨hs, hst, hgt⟩
    · rw [hs] at ha
      simp only [if_false, List.not_mem_nil, false_or, Bool.false_eq_true] at ha
      rw [hst] at ha
      exact ih st l hlast a ha
    · rw [hs] at ha
      simp only [if_true] at ha
      rcases ha with ha | ha
      · simp at ha
        subst ha
        exact hgt l hlast
      · rw [hst] at ha
        exact lt_trans (hgt l hlast) (ih ⟨st.shared, some sq⟩ sq rfl a ha)

theorem runRoots_chain (tr : List (Bool × Nat)) :
    ∀ st : RootState, List.Chain' (· < ·) (runRoots st tr).2 := by
  induction tr with
  | nil => intro st; simp [runRoots]
  | cons p rest ih =>
    intro st
    obtain ⟨v, sq⟩ := p
    simp only [runRoots]
    rcases handleRoot_cases v st sq with ⟨hs, hst⟩ | ⟨hs, hst, _⟩
    · rw [hs]
      simpa using ih (handleRoot v st sq).st
    · rw [hs]
      simp only [if_true, List.singleton_append]
      refine List.chain'_cons'.mpr ⟨?_, ih (handleRoot v st sq).st⟩
      intro b hb
      have hmem : b ∈ (runRoots (handleRoot v st sq).st rest).2 :=
        List.mem_of_mem_head? hb
      rw [hst] at hmem
      exact runRoots_gt rest ⟨st.shared, some sq⟩ sq rfl b hmem

theorem isResponse_none (reqs : Reqs) (h : ∀ p ∈ reqs, p.1 ≠ 0) :
    isResponse reqs 0 = none := by
  induction reqs with
  | nil => rfl
  | cons p rest ih =>
    obtain ⟨k, s⟩ := p
    have hk : k ≠ 0 := h (k, s) (List.mem_cons_self _ _)
    simp only [isResponse, hk, if_neg hk]
    exact ih fun q hq => h q (List.mem_cons_of_mem _ hq)

theorem seqAfter_eq (n : Nat) : seqAfter n = n % u32Mod := by
  induction n with
  | zero => rfl
  | succ k ih =>
    simp only [seqAfter, nextSeq, ih, u32Mod]
    omega

--
-- claim theorems
--

/-- C1: the codec round-trip law fails on the code as written.  Evaluated at
seq=1, rseq=2, m=RqList: encodeMsg writes rseq into raw[:4], overwriting
seq and leaving bytes 4..7 zero, so decoding the frame yields (2, 0, m)
and not (1, 2, m); decodeRaw (and the receiving loop) read seq from bytes
0..3 and rseq from bytes 4..7, so the encoder contradicts the decoder of
the same file - the slip is raw[:4] where raw[4:] is needed. -/
theorem c1_roundTrip_codeBug :
    decodeRaw (encodeMsg 1 2 Msg.rqList) = Except.ok (2, 0, Msg.rqList) ∧
    decodeRaw (encodeMsg 1 2 Msg.rqList) ≠ Except.ok (1, 2, Msg.rqList) := by
  refine ⟨rfl, fun h => ?_⟩
  rw [show decodeRaw (encodeMsg 1 2 Msg.rqList) = Except.ok (2, 0, Msg.rqList)
    from rfl] at h
  exact absurd (Except.ok.inj h) (by decide)

/-- C2: request/reply hand-off is broken in the code as written.  The
receiving loop delivers a matched response by SENDING it into the pending
request's sink (rq <- m), but sendRequest's select also SENDS on that sink
(case rq <- reply) instead of receiving, so the unbuffered channel can
never transfer the message - both sides are senders - and even at the
sending case sendRequest returns its reply variable, which was never
assigned, i.e. the nil message rather than the delivered one. -/
theorem c2_replyDelivery_codeBug :
    (∀ m : Msg, sinkTransfers (receivingSinkOp m) sendRequestSinkOp = false) ∧
    sendRequestResult SendRequestEvent.sinkFired = Except.ok none :=
  ⟨fun _ => rfl, rfl⟩

/-- C3 counterexample: with hash [] = 0 and key 1, cget.Get rejects the
mismatching Object reply with an error, but its closed-connection component
is false - the body of Get contains no close or fatality call - refuting
the claim that a hash mismatch terminates the connection. -/
theorem c3_counterexample :
    (cgetGet (fun v => v.length) 1 (Except.ok (Msg.object []))).1 =
      Except.error "wrong object received (different hash)" ∧
    (cgetGet (fun v => v.length) 1 (Except.ok (Msg.object []))).2 = false :=
  ⟨rfl, rfl⟩

/-- C3 amended: an Object reply for RqObject(key) is accepted only when the
hash of its value equals key - a mismatch is rejected with an error
returned to the caller - but the connection is never closed by cget.Get,
on any input. -/
theorem c3_objectIntegrity_amended :
    (∀ (hash : List Nat → Nat) (key : Nat) (reply : Except String Msg)
      (v : List Nat), (cgetGet hash key reply).1 = Except.ok v → hash v = key) ∧
    (∀ (hash : List Nat → Nat) (key : Nat) (reply : Except String Msg),
      (cgetGet hash key reply).2 = false) := by
  constructor
  · intro hash key reply v h
    match reply with
    | .error e => simp [cgetGet] at h
    | .ok m =>
      cases m <;> simp [cgetGet] at h
      case object w =>
        by_cases hc : hash w = key
        · rw [if_pos hc] at h
          simp at h
          rw [← h]
          exact hc
        · rw [if_neg hc] at h
          simp at h
  · intro hash key reply
    match reply with
    | .error e => rfl
    | .ok m =>
      cases m <;> simp [cgetGet] <;> split <;> rfl

/-- C3 witness: a matching reply (hash [7] = 1 = key) is accepted, and the
connection stays open. -/
theorem c3_objectIntegrity_amended_witness :
    (fun v : List Nat => v.length) [7] = 1 ∧
    (cgetGet (fun v => v.length) 1 (Except.ok (Msg.object [7]))).2 = false :=
  ⟨c3_objectIntegrity_amended.1 (fun v => v.length) 1
      (Except.ok (Msg.object [7])) [7] rfl,
    c3_objectIntegrity_amended.2 (fun v => v.length) 1
      (Except.ok (Msg.object [7]))⟩

/-- C4: an incoming Root whose seq is at most the highest stored seq for
its (feed, nonce) is dropped with no verification and no store and no state
change; consequently the accepted (stored) Root seqs along any trace of
incoming Roots form a strictly increasing sequence. -/
theorem c4_rootMonotonic :
    (∀ (st : RootState) (rootSeq lastv : Nat),
      lastRootSeq st = LastSeqRes.found lastv → rootSeq ≤ lastv →
      ∀ verifyOk, handleRoot verifyOk st rootSeq = ⟨st, false, false⟩) ∧
    (∀ (tr : List (Bool × Nat)) (st : RootState),
      List.Chain' (· < ·) (runRoots st tr).2) := by
  constructor
  · intro st rootSeq lastv hfound hle verifyOk
    simp only [handleRoot, hfound]
    rw [if_pos hle]
  · intro tr st
    exact runRoots_chain tr st

/-- C4 witness: with stored seq 5, an incoming Root with seq 4 is dropped
unverified and unstored; a concrete trace accepts 1 then 3 and drops 2,
a strictly increasing accepted sequence. -/
theorem c4_rootMonotonic_witness :
    handleRoot true ⟨true, some 5⟩ 4 = ⟨⟨true, some 5⟩, false, false⟩ ∧
    List.Chain' (· < ·)
      (runRoots ⟨true, none⟩ [(true, 1), (true, 3), (true, 2)]).2 :=
  ⟨c4_rootMonotonic.1 ⟨true, some 5⟩ 4 5 rfl (by decide) true,
    c4_rootMonotonic.2 [(true, 1), (true, 3), (true, 2)] ⟨true, none⟩⟩

/-- C5 counterexample: a peer that shares feed 1 (with an empty subscriber
set) accepts the Sub of connection 7 carried with seq 5; handleSub - the
complete handler the receiving loop runs for an incoming Sub - replies
exactly Ok and sends no Root message, although nothing prevents the peer
from holding a latest Root for the feed: handleSub never consults
LastRoot, so the subscriber does not receive the peer's latest Root as
part of the exchange, refuting that part of the claim. -/
theorem c5_counterexample :
    (handleSub none [(1, [])] 7 5 1).sends = [(5, Msg.ok)] ∧
    ((handleSub none [(1, [])] 7 5 1).sends.all fun p => !(isRootMsg p.2)) =
      true := by
  decide

/-- C5 amended: when Subscribe(F) completes successfully the subscriber
receives Ok and (subscriber, F) is added to the peer's subscribers
registry without closing the connection; the peer pushes no Root while
handling the Sub - instead the subscriber, upon the Ok reply, records the
feed locally and sends its OWN latest Root of F (if any) to the peer. -/
theorem c5_subscribe_amended :
    ∀ (reg : FeedReg) (c : ConnId) (seq feed : Nat),
      feed ≠ 0 → hasFeed reg feed = true → hasConnFeed reg c feed = false →
      ((handleSub none reg c seq feed).sends = [(seq, Msg.ok)] ∧
        (handleSub none reg c seq feed).fatal = none ∧
        hasConnFeed (handleSub none reg c seq feed).reg c feed = true) ∧
      (∀ (regB : FeedReg) (cB : ConnId) (r : RootDesc),
        subscribeOnReply regB cB feed (some r) Msg.ok =
          (addConnFeed regB cB feed, [sendRootMsg r], none)) := by
  intro reg c seq feed hne hf hcf
  have heq : handleSub none reg c seq feed =
      ⟨addConnFeed reg c feed, [(seq, Msg.ok)], none⟩ := by
    simp [handleSub, hne, hcf, hf]
  constructor
  · rw [heq]
    exact ⟨rfl, rfl, hasConnFeed_addConnFeed reg c feed hf⟩
  · intro regB cB r
    rfl

/-- C5 witness: the amended statement evaluated for a peer sharing feed 1,
subscriber connection 7, request seq 5. -/
theorem c5_subscribe_amended_witness :
    ((handleSub none [(1, [])] 7 5 1).sends = [(5, Msg.ok)] ∧
      (handleSub none [(1, [])] 7 5 1).fatal = none ∧
      hasConnFeed (handleSub none [(1, [])] 7 5 1).reg 7 1 = true) ∧
    (∀ (regB : FeedReg) (cB : ConnId) (r : RootDesc),
      subscribeOnReply regB cB 1 (some r) Msg.ok =
        (addConnFeed regB cB 1, [sendRootMsg r], none)) :=
  c5_subscribe_amended [(1, [])] 7 5 1 (by decide) (by decide) (by decide)

/-- C6: an incoming Sub for a non-blank feed the node does not share, with
a non-rejecting onSubscribeRemote, is answered with Err "do not share the
feed"; the registry is unchanged - so the connection is not added to the
feed's subscribers - and the handler returns no fatal error, so the
connection stays open. -/
theorem c6_unsharedFeed :
    ∀ (reg : FeedReg) (c : ConnId) (seq feed : Nat),
      feed ≠ 0 → hasFeed reg feed = false →
      handleSub none reg c seq feed =
        ⟨reg, [(seq, Msg.err "do not share the feed")], none⟩ := by
  intro reg c seq feed hne hnf
  have hcf : hasConnFeed reg c feed = false :=
    hasConnFeed_of_not_hasFeed reg c feed hnf
  simp [handleSub, hne, hcf, hnf]

/-- C6 witness: a node sharing only feed 2 answers a Sub for feed 1 with
the error and leaves its registry untouched. -/
theorem c6_unsharedFeed_witness :
    handleSub none [(2, [])] 7 5 1 =
      ⟨[(2, [])], [(5, Msg.err "do not share the feed")], none⟩ :=
  c6_unsharedFeed [(2, [])] 7 5 1 (by decide) (by decide)

/-- C7: an incoming RqList on a node not configured public is answered with
Err(ErrNotPublic); on a public node it is answered with a List holding
exactly the node's current shared feeds - the reply's list is
Node.Feeds(), whose members are exactly the feeds the registry holds. -/
theorem c7_rqList :
    ∀ (pub : Bool) (reg : FeedReg) (seq : Nat),
      (pub = false → handleRqList pub reg seq = [(seq, Msg.err errNotPublicStr)]) ∧
      (pub = true →
        handleRqList pub reg seq = [(seq, Msg.list (nodeFeeds reg))] ∧
        ∀ f, f ∈ nodeFeeds reg ↔ hasFeed reg f = true) := by
  intro pub reg seq
  constructor
  · intro hp
    simp [handleRqList, hp]
  · intro hp
    exact ⟨by simp [handleRqList, hp], fun f => mem_nodeFeeds reg f⟩

/-- C7 witness: a non-public node rejects RqList; a public node sharing
feed 4 replies List [4]. -/
theorem c7_rqList_witness :
    handleRqList false [(4, [])] 9 = [(9, Msg.err errNotPublicStr)] ∧
    handleRqList true [(4, [])] 9 = [(9, Msg.list [4])] :=
  ⟨(c7_rqList false [(4, [])] 9).1 rfl, ((c7_rqList true [(4, [])] 9).2 rfl).1⟩

/-- C8: closing is single-shot - a second close is a no-op, so repeated
Close calls produce exactly one onDisconnect - and a first close removes
the connection from the active set, from every feed subscription set and
from the Want Registry, closes the transport, waits out the receive task
and fails every still-pending request with ErrClosed. -/
theorem c8_closeSequence :
    ∀ (c : ConnId) (st : CloseState),
      closeConn c (closeConn c st) = closeConn c st ∧
      (st.closedOnce = true → closeConn c st = st) ∧
      (st.closedOnce = false →
        (closeConn c st).disconnects = st.disconnects + 1 ∧
        memC c (closeConn c st).active = false ∧
        (∀ p ∈ (closeConn c st).feeds, memC c p.2 = false) ∧
        (∀ p ∈ (closeConn c st).wants, memC c p.2 = false) ∧
        (closeConn c st).transportClosed = true ∧
        (closeConn c st).recvDone = true ∧
        (closeConn c st).pending = [] ∧
        (closeConn c st).failedClosed = st.failedClosed ++ st.pending) := by
  intro c st
  by_cases h : st.closedOnce
  · refine ⟨?_, fun _ => ?_, fun hf => absurd h (by simp [hf])⟩
    · simp [closeConn, h]
    · simp [closeConn, h]
  · have heq : closeConn c st =
        ⟨true, removeC c st.active, removeConnEverywhere c st.feeds,
          removeConnEverywhere c st.wants, true, true, st.disconnects + 1,
          [], st.failedClosed ++ st.pending⟩ := by
      simp [closeConn, h]
    refine ⟨?_, fun ht => absurd ht (by simp [h]), fun _ => ?_⟩
    · rw [heq]
      simp [closeConn]
    · rw [heq]
      refine ⟨rfl, memC_removeC c st.active, ?_, ?_, rfl, rfl, rfl, rfl⟩
      · intro p hp
        obtain ⟨q, _, hq⟩ := List.mem_map.mp hp
        rw [← hq]
        exact memC_removeC c q.2
      · intro p hp
        obtain ⟨q, _, hq⟩ := List.mem_map.mp hp
        rw [← hq]
        exact memC_removeC c q.2

/-- C8 witness: a concrete open connection 7 - active, subscribed to feed
1, waiting for object 9, with pending requests 1 and 2 - closed once and
then closed again. -/
theorem c8_closeSequence_witness :
    closeConn 7 (closeConn 7 ⟨false, [7], [(1, [7])], [(9, [7])], false,
        false, 0, [1, 2], []⟩) =
      closeConn 7 ⟨false, [7], [(1, [7])], [(9, [7])], false, false, 0,
        [1, 2], []⟩ ∧
    (closeConn 7 ⟨false, [7], [(1, [7])], [(9, [7])], false, false, 0,
        [1, 2], []⟩).disconnects = 0 + 1 :=
  ⟨(c8_closeSequence 7 ⟨false, [7], [(1, [7])], [(9, [7])], false, false, 0,
      [1, 2], []⟩).1,
    ((c8_closeSequence 7 ⟨false, [7], [(1, [7])], [(9, [7])], false, false,
      0, [1, 2], []⟩).2.2 rfl).1⟩

/-- C9 counterexample: when the wait for the requested object times out the
handler sends Err with the EMPTY message - the source composes the literal
&msg.Err with no field set - not Err "timeout" as the claim states. -/
theorem c9_counterexample :
    handleRqObject 3 RqObjEvent.timedOut = [(3, Msg.err "")] ∧
    handleRqObject 3 RqObjEvent.timedOut ≠ [(3, Msg.err "timeout")] := by
  exact ⟨rfl, by decide⟩

/-- C9 amended: an RqObject whose object is available immediately or
arrives within the response timeout is answered with Object(value); when
the timeout elapses the node replies Err with an empty message; when the
connection closes nothing is sent. -/
theorem c9_rqObjectService :
    ∀ (seq : Nat) (v : List Nat),
      handleRqObject seq (RqObjEvent.immediate v) = [(seq, Msg.object v)] ∧
      handleRqObject seq (RqObjEvent.arrival v) = [(seq, Msg.object v)] ∧
      handleRqObject seq RqObjEvent.timedOut = [(seq, Msg.err "")] ∧
      handleRqObject seq RqObjEvent.connClosed = [] :=
  fun _ _ => ⟨rfl, rfl, rfl, rfl⟩

/-- C10: the outbound counter starts at 0 and nextSeq pre-increments, so
the n-th request of an interval that does not cross 2^32 calls gets seq
n ≠ 0; hence a pending-request table whose keys all come from such calls
has no key 0, and the receiving loop routes every incoming message with
rseq = 0 to the unsolicited handler, never to a pending-request sink. -/
theorem c10_unsolicited :
    (∀ n : Nat, 0 < n → n < u32Mod → seqAfter n = n ∧ seqAfter n ≠ 0) ∧
    (∀ reqs : Reqs,
      (∀ p ∈ reqs, ∃ n, 0 < n ∧ n < u32Mod ∧ p.1 = seqAfter n) →
      isResponse reqs 0 = none ∧ receivingRoute reqs 0 = Route.toHandle) := by
  constructor
  · intro n hpos hlt
    have he : seqAfter n = n := by
      rw [seqAfter_eq]
      exact Nat.mod_eq_of_lt hlt
    exact ⟨he, by omega⟩
  · intro reqs hkeys
    have hnone : isResponse reqs 0 = none := by
      refine isResponse_none reqs fun p hp => ?_
      obtain ⟨n, hpos, hlt, hv⟩ := hkeys p hp
      rw [hv, seqAfter_eq]
      have := Nat.mod_eq_of_lt hlt
      omega
    exact ⟨hnone, by simp [receivingRoute, hnone]⟩

/-- C10 witness: the first call returns seq 1, and a table holding only
the pending seq 1 routes an incoming message with rseq 0 to the
unsolicited handler. -/
theorem c10_unsolicited_witness :
    (seqAfter 1 = 1 ∧ seqAfter 1 ≠ 0) ∧
    (isResponse [(1, 10)] 0 = none ∧
      receivingRoute [(1, 10)] 0 = Route.toHandle) :=
  ⟨c10_unsolicited.1 1 (by decide) (by decide),
    c10_unsolicited.2 [(1, 10)] (by
      intro p hp
      simp only [List.mem_singleton] at hp
      refine ⟨1, by decide, by decide, ?_⟩
      rw [hp]
      rfl)⟩
